import Mathlib

/-!
Verification development for the facebook-post-extractor pipeline
(`src/main.py`): a shallow embedding of the post extraction / merge /
render pipeline, with theorems checking the specification's claims.

Modelling conventions:
  * Python dicts of the archive's record shape are embedded as typed
    structures whose fields mirror exactly the accesses the code makes
    (`item.get("timestamp", 0)`, `d.get("post")`, ...).  A field whose
    Python truthiness test collapses absent/falsy to the same behaviour is
    modelled by its default value (e.g. `d.get("post")` as a `String`,
    empty meaning absent-or-empty).
  * Python's `set` of seen timestamps is modelled as a `List Int` with
    membership tests.
  * File I/O is factored out: `load_and_merge_posts` receives the list of
    parse results (`none` = `json.JSONDecodeError`), and `generate_html`
    receives the file-existence predicate used by `copy_photo`.
  * `list.sort(key=..., reverse=True)` (Timsort, stable also under
    `reverse=True`) is modelled by the stable insertion sort `sortDesc`;
    a stable sort's output is uniquely determined by key and input order.
-/

/-! ## Text Normalizer: `fix_encoding` (src/main.py lines 12-18) -/

/-- Model of `text.encode('latin-1')`: one byte per code point, raising
(`none`) when a character is above U+00FF (`UnicodeEncodeError`). -/
def encodeLatin1 (s : String) : Option (List Nat) :=
  if s.toList.all (fun c => c.toNat ≤ 0xFF) then some (s.toList.map Char.toNat)
  else none

/-- Continuation byte test for the UTF-8 decoder: 0x80-0xBF. -/
def isCont (b : Nat) : Bool := 0x80 ≤ b && b ≤ 0xBF

/-- Model of `bytes.decode('utf-8')` (strict): rejects invalid start bytes,
truncated sequences, bad continuation bytes, overlong forms, surrogates and
code points above U+10FFFF, as CPython's strict UTF-8 decoder does. -/
def utf8Decode : List Nat → Option (List Char)
  | [] => some []
  | b :: rest =>
    if b < 0x80 then
      (utf8Decode rest).map (fun cs => Char.ofNat b :: cs)
    else if b < 0xC2 then
      none
    else if b < 0xE0 then
      match rest with
      | c1 :: rest1 =>
        if isCont c1 then
          (utf8Decode rest1).map (fun cs =>
            Char.ofNat ((b - 0xC0) * 0x40 + (c1 - 0x80)) :: cs)
        else none
      | [] => none
    else if b < 0xF0 then
      match rest with
      | c1 :: c2 :: rest2 =>
        if isCont c1 && isCont c2
            && (b != 0xE0 || 0xA0 ≤ c1)
            && (b != 0xED || c1 ≤ 0x9F) then
          (utf8Decode rest2).map (fun cs =>
            Char.ofNat ((b - 0xE0) * 0x1000 + (c1 - 0x80) * 0x40 + (c2 - 0x80)) :: cs)
        else none
      | _ => none
    else if b < 0xF5 then
      match rest with
      | c1 :: c2 :: c3 :: rest3 =>
        if isCont c1 && isCont c2 && isCont c3
            && (b != 0xF0 || 0x90 ≤ c1)
            && (b != 0xF4 || c1 ≤ 0x8F) then
          (utf8Decode rest3).map (fun cs =>
            Char.ofNat ((b - 0xF0) * 0x40000 + (c1 - 0x80) * 0x1000
              + (c2 - 0x80) * 0x40 + (c3 - 0x80)) :: cs)
        else none
      | _ => none
    else none

/-- The body of the `try` block of `fix_encoding`:
`text.encode('latin-1').decode('utf-8')`, with `none` standing for either
`UnicodeEncodeError` or `UnicodeDecodeError`. -/
def repair_transform (s : String) : Option String :=
  (encodeLatin1 s).bind (fun bs => (utf8Decode bs).map String.mk)

/-- `fix_encoding` (src/main.py lines 12-18): empty input is returned as is
(`if not text`); otherwise the repair transform is attempted and any
failure is caught, returning the original string.  Total by construction. -/
def fix_encoding (text : String) : String :=
  if text = "" then text
  else
    match repair_transform text with
    | some repaired => repaired
    | none => text

/-! ## String helpers used by the extractor and the renderer -/

/-- List-of-chars version of "needle starts the haystack". -/
def strStarts : List Char → List Char → Bool
  | [], _ => true
  | _ :: _, [] => false
  | a :: as, b :: bs => a == b && strStarts as bs

/-- List-of-chars substring search. -/
def strFind (needle : List Char) : List Char → Bool
  | [] => needle.isEmpty
  | c :: rest => strStarts needle (c :: rest) || strFind needle rest

/-- Model of Python's `needle in hay` on strings. -/
def strContains (hay needle : String) : Bool :=
  strFind needle.toList hay.toList

/-- Model of `pathlib.Path(p).name`: the last slash-separated component
(empty components from doubled or trailing slashes ignored, matching
PurePath's normalisation; the `"."` and `".."` special cases do not occur in
archive media paths and are not modelled). -/
def pathName (p : String) : String :=
  (((p.splitOn "/").filter (fun c => c ≠ "")).getLastD "")

/-! ## Data model: archive records and `FacebookPost` -/

/-- One entry of a record's `data` list; `post` mirrors `d.get("post")`
with `""` for absent (both are falsy in the `if d.get("post")` test). -/
structure DataEntry where
  post : String
deriving DecidableEq, Repr

/-- One entry of a record's `tags` list; `name` mirrors `t.get("name", "")`. -/
structure Tag where
  name : String
deriving DecidableEq, Repr

/-- The `media` object of an attachment data entry; `uri` mirrors
`media.get("uri", "")`.  An absent-or-falsy `media` value is modelled as
`none` on the containing entry (an empty dict behaves identically to a
dict whose `uri` is empty: no path is appended either way). -/
structure MediaObj where
  uri : String
deriving DecidableEq, Repr

/-- The `external_context` object of an attachment data entry.  `none` on
the containing entry models an absent or falsy (empty-dict) value, for
which `if att_data.get("external_context")` does not fire; a present truthy
dict without a `"url"` key is `some { url := none }`. -/
structure ExternalContext where
  url : Option String
deriving DecidableEq, Repr

/-- One entry of an attachment's `data` list. -/
structure AttData where
  media : Option MediaObj
  external_context : Option ExternalContext
deriving DecidableEq, Repr

/-- One attachment of a record: `attachment.get("data", [])`. -/
structure Attachment where
  data : List AttData
deriving DecidableEq, Repr

/-- One raw archive record, mirroring exactly the fields
`extract_posts_from_json` reads.  `timestamp` is `none` when the key is
absent (`item.get("timestamp", 0)` then yields 0). -/
structure Record where
  timestamp : Option Int
  data : List DataEntry
  title : String
  tags : List Tag
  attachments : List Attachment
deriving DecidableEq, Repr

/-- Model of `datetime.fromtimestamp(ts).strftime("%Y-%m-%d %H:%M:%S")`:
a local-time display rendering, time-zone dependent in the source, modelled
as a fixed rendering of the timestamp (no claim depends on its content). -/
def strftimeModel (ts : Int) : String :=
  "ts:" ++ toString ts

/-- The `FacebookPost` dataclass (src/main.py lines 21-34). -/
structure FacebookPost where
  timestamp : Int
  post_text : String
  title : String
  photo_paths : List String
  photo_filenames : List String
  date_string : String
  tags : List String
  external_url : String
deriving DecidableEq, Repr

/-- Dataclass construction including `__post_init__`: `date_string` is set
from the timestamp when it is truthy (nonzero). -/
def mkFacebookPost (timestamp : Int) (post_text title : String)
    (photo_paths photo_filenames tags : List String)
    (external_url : String) : FacebookPost :=
  { timestamp := timestamp
    post_text := post_text
    title := title
    photo_paths := photo_paths
    photo_filenames := photo_filenames
    date_string := if timestamp ≠ 0 then strftimeModel timestamp else ""
    tags := tags
    external_url := external_url }

/-! ## Post Extractor: `extract_posts_from_json` (src/main.py lines 37-84) -/

/-- `item.get("timestamp", 0)`. -/
def recordKey (item : Record) : Int :=
  item.timestamp.getD 0

/-- The text-extraction loop (lines 48-52): first entry with a truthy
`post` field wins and is normalised; otherwise the text stays empty. -/
def extractText : List DataEntry → String
  | [] => ""
  | d :: ds => if d.post ≠ "" then fix_encoding d.post else extractText ds

/-- One iteration of the inner attachment loop (lines 62-70): a truthy
`media` with a nonempty, non-sticker `uri` appends to `photo_paths`; a
truthy `external_context` overwrites `external_url` with its `url`
(default empty). -/
def attDataStep (acc : List String × String) (ad : AttData) : List String × String :=
  let photo_paths :=
    match ad.media with
    | some m =>
      if m.uri ≠ "" ∧ strContains m.uri.toLower "sticker" = false then acc.1 ++ [m.uri]
      else acc.1
    | none => acc.1
  let external_url :=
    match ad.external_context with
    | some ec => ec.url.getD ""
    | none => acc.2
  (photo_paths, external_url)

/-- The nested attachment scan (lines 58-70), returning the accumulated
`photo_paths` and the final `external_url`. -/
def scanAttachments (atts : List Attachment) : List String × String :=
  atts.foldl (fun acc att => att.data.foldl attDataStep acc) ([], "")

/-- The post a record would produce when it passes both the dedup check and
the retention filter (lines 72-82). -/
def postOf (item : Record) : FacebookPost :=
  mkFacebookPost (recordKey item) (extractText item.data) (fix_encoding item.title)
    (scanAttachments item.attachments).1
    ((scanAttachments item.attachments).1.map pathName)
    (item.tags.map (fun t => fix_encoding t.name))
    (scanAttachments item.attachments).2

/-- One iteration of the record loop (lines 41-82): the state is
`(posts, seen_timestamps)`.  The timestamp is added to the seen set
*before* the retention filter is evaluated. -/
def extractStep (acc : List FacebookPost × List Int) (item : Record) :
    List FacebookPost × List Int :=
  if recordKey item ∈ acc.2 then acc
  else if extractText item.data ≠ "" ∨ (scanAttachments item.attachments).1 ≠ [] then
    (acc.1 ++ [postOf item], recordKey item :: acc.2)
  else
    (acc.1, recordKey item :: acc.2)

/-- `extract_posts_from_json` (lines 37-84). -/
def extract_posts_from_json (data : List Record) : List FacebookPost :=
  (data.foldl extractStep ([], [])).1

/-! ## Archive Loader and Merger/Sorter: `load_and_merge_posts`
(src/main.py lines 104-122).  A file is given as `none` when `json.load`
raises `JSONDecodeError` (the caught, reported-and-skipped case). -/

/-- The cross-file merge of one extracted post (lines 114-117): append it
unless its timestamp was already accepted from an earlier file. -/
def dedupInsert (acc : List FacebookPost × List Int) (post : FacebookPost) :
    List FacebookPost × List Int :=
  if post.timestamp ∈ acc.2 then acc
  else (acc.1 ++ [post], post.timestamp :: acc.2)

/-- Processing of one file (lines 108-119): a parse failure leaves the
state untouched (the error is only printed); a parsed document is run
through the extractor and merged. -/
def mergeFileStep (acc : List FacebookPost × List Int) (file : Option (List Record)) :
    List FacebookPost × List Int :=
  match file with
  | none => acc
  | some data => (extract_posts_from_json data).foldl dedupInsert acc

/-- The accumulated `all_posts` list right before the final sort
(state of line 121). -/
def merge_unsorted (files : List (Option (List Record))) : List FacebookPost :=
  (files.foldl mergeFileStep ([], [])).1

/-- Stable descending insertion: the new post goes after every earlier post
with a strictly larger timestamp and before the first with an equal or
smaller one, so equal keys keep their original relative order. -/
def insertDesc (p : FacebookPost) : List FacebookPost → List FacebookPost
  | [] => [p]
  | q :: qs => if q.timestamp > p.timestamp then q :: insertDesc p qs else p :: q :: qs

/-- Model of `all_posts.sort(key=lambda p: p.timestamp, reverse=True)`:
stable sort by timestamp descending. -/
def sortDesc : List FacebookPost → List FacebookPost
  | [] => []
  | p :: ps => insertDesc p (sortDesc ps)

/-- `load_and_merge_posts` (lines 104-122): merge every parseable file,
then sort descending by timestamp in place and return. -/
def load_and_merge_posts (files : List (Option (List Record))) : List FacebookPost :=
  sortDesc (merge_unsorted files)

/-- Invariant tying an accumulated `(posts, seen_timestamps)` state
together: timestamps of accumulated posts are pairwise distinct and all
belong to the seen set. -/
def dedupInv (acc : List FacebookPost × List Int) : Prop :=
  (acc.1.map (fun p => p.timestamp)).Nodup ∧ ∀ p ∈ acc.1, p.timestamp ∈ acc.2

/-- Declarative description of the attachment scan's URL result: the `url`
of the last data entry carrying a (truthy) `external_context`, defaulting
to the empty string both when that entry has no `url` key and when no entry
carries an `external_context` at all. -/
def lastExternalUrl (atts : List Attachment) : String :=
  match ((atts.flatMap (fun a => a.data)).filterMap (fun ad => ad.external_context)).getLast? with
  | some ec => ec.url.getD ""
  | none => ""

/-! ## HTML Renderer: `generate_html` (src/main.py lines 145-298).
The filesystem side effects (mkdir, copy2, final write) are factored out:
the existence test `src.exists()` becomes the predicate `ex`, and the
function returns the `html_content` string that is written to
`index.html`.  Literal braces of the CSS template (written `{{`/`}}` in
the Python f-string) appear as `\x7b`/`\x7d` escapes. -/

/-- Model of `html.escape(s)` (quote=True).  CPython applies the five
replacements sequentially with `&` first, which is equivalent to this
per-character map because no replacement output contains a character that
a later replacement rewrites. -/
def escapeChar (c : Char) : String :=
  if c = '&' then "&amp;"
  else if c = '<' then "&lt;"
  else if c = '>' then "&gt;"
  else if c = Char.ofNat 34 then "&quot;"
  else if c = Char.ofNat 39 then "&#x27;"
  else String.mk [c]

/-- Model of `html.escape` applied to a whole string: the concatenation of
the per-character replacements. -/
def htmlEscape (s : String) : String :=
  String.mk (s.toList.flatMap (fun c => (escapeChar c).data))

/-- `copy_photo` (lines 150-157), with the filesystem abstracted: when the
source file exists the copied file keeps its basename and the returned
reference is relative to the output directory; otherwise the empty string
signals the photo is dropped. -/
def copy_photo (ex : String → Bool) (photo_path : String) : String :=
  if ex photo_path then "photos/" ++ pathName photo_path else ""

/-- The `<img>` element built for one successfully copied photo (line 168). -/
def imgTag (copied_path : String) : String :=
  "<img src=\"" ++ htmlEscape copied_path ++ "\" alt=\"Photo\" class=\"post-photo\">"

/-- The per-post fragment appended to `html_items` (lines 161-195),
whitespace exactly as in the f-string template. -/
def postHtmlItem (ex : String → Bool) (post : FacebookPost) : String :=
  let photo_copies := post.photo_paths.foldl (fun acc p =>
    let copied_path := copy_photo ex p
    if copied_path ≠ "" then acc ++ [imgTag copied_path] else acc) []
  let photo_html :=
    if post.photo_paths ≠ [] then
      if photo_copies ≠ [] then
        "<div class=\"photos\">" ++ String.join photo_copies ++ "</div>"
      else ""
    else ""
  let text_html :=
    if post.post_text ≠ "" then
      "<p class=\"post-text\">" ++ htmlEscape post.post_text ++ "</p>"
    else ""
  let title_html :=
    if post.title ≠ "" then
      "<p class=\"title\">" ++ htmlEscape post.title ++ "</p>"
    else ""
  let date_html :=
    if post.date_string ≠ "" then
      "<span class=\"date\">" ++ htmlEscape post.date_string ++ "</span>"
    else ""
  let tags_html :=
    if post.tags ≠ [] then
      "<div class=\"tags\">Označení: " ++ htmlEscape (String.intercalate ", " post.tags) ++ "</div>"
    else ""
  let external_html :=
    if post.external_url ≠ "" then
      "<a href=\"" ++ htmlEscape post.external_url
        ++ "\" target=\"_blank\" rel=\"noopener\" class=\"external-link\">Externý odkaz</a>"
    else ""
  "\n        <div class=\"post\">\n            <div class=\"post-header\">\n                "
    ++ date_html
    ++ "\n            </div>\n            "
    ++ title_html ++ "\n            "
    ++ text_html ++ "\n            "
    ++ photo_html ++ "\n            "
    ++ tags_html ++ "\n            "
    ++ external_html ++ "\n        </div>\n        "

/-- The fixed document head and style block of the `html_content` template
(lines 197-283), up to and including the opening of the body. -/
def htmlDocHead : String :=
  "<!DOCTYPE html>
<html lang=\"sk\">
<head>
    <meta charset=\"UTF-8\">
    <meta name=\"viewport\" content=\"width=device-width, initial-scale=1.0\">
    <title>Archív Facebook príspevkov</title>
    <style>
        * \x7b
            box-sizing: border-box;
            margin: 0;
            padding: 0;
        \x7d
        body \x7b
            font-family: -apple-system, BlinkMacSystemFont, \"Segoe UI\", Roboto, Helvetica, Arial, sans-serif;
            background-color: #f0f2f5;
            padding: 20px;
            color: #1c1e21;
        \x7d
        .container \x7b
            max-width: 680px;
            margin: 0 auto;
        \x7d
        h1 \x7b
            text-align: center;
            margin-bottom: 20px;
            color: #1877f2;
        \x7d
        .stats \x7b
            text-align: center;
            margin-bottom: 20px;
            color: #65676b;
        \x7d
        .post \x7b
            background: white;
            border-radius: 8px;
            box-shadow: 0 1px 2px rgba(0,0,0,0.1);
            margin-bottom: 15px;
            padding: 15px;
        \x7d
        .post-header \x7b
            margin-bottom: 10px;
        \x7d
        .date \x7b
            color: #65676b;
            font-size: 0.9em;
        \x7d
        .title \x7b
            color: #65676b;
            font-size: 0.85em;
            margin-bottom: 8px;
        \x7d
        .post-text \x7b
            font-size: 15px;
            line-height: 1.5;
            margin-bottom: 10px;
            white-space: pre-wrap;
            word-wrap: break-word;
        \x7d
        .photos \x7b
            display: flex;
            flex-wrap: wrap;
            gap: 8px;
            margin-top: 10px;
        \x7d
        .post-photo \x7b
            max-width: 100%;
            max-height: 500px;
            border-radius: 8px;
            object-fit: contain;
            cursor: pointer;
        \x7d
        .tags \x7b
            margin-top: 10px;
            color: #1877f2;
            font-size: 0.9em;
        \x7d
        .external-link \x7b
            display: inline-block;
            margin-top: 10px;
            color: #1877f2;
            text-decoration: none;
        \x7d
        .external-link:hover \x7b
            text-decoration: underline;
        \x7d
    </style>
</head>
<body>
    <div class=\"container\">
        <h1>Archív Facebook príspevkov</h1>
        <p class=\"stats\">Celkom príspevkov: "

/-- `html_content` (lines 197-292): the complete generated document for
the given posts, parameterised by the photo-existence predicate. -/
def generate_html (ex : String → Bool) (posts : List FacebookPost) : String :=
  htmlDocHead ++ toString posts.length ++ "</p>\n        "
    ++ String.join (posts.map (postHtmlItem ex))
    ++ "\n    </div>\n</body>\n</html>\n"

/-! ## Lemmas about the stable descending sort -/

theorem insertDesc_perm (p : FacebookPost) (l : List FacebookPost) :
    (insertDesc p l).Perm (p :: l) := by
  induction l with
  | nil => simp [insertDesc]
  | cons q qs ih =>
    simp only [insertDesc]
    split
    · exact (List.Perm.cons q ih).trans (List.Perm.swap p q qs)
    · exact List.Perm.refl _

theorem sortDesc_perm (l : List FacebookPost) : (sortDesc l).Perm l := by
  induction l with
  | nil => simp [sortDesc]
  | cons p ps ih =>
    exact (insertDesc_perm p (sortDesc ps)).trans (List.Perm.cons p ih)

theorem insertDesc_pairwise (p : FacebookPost) (l : List FacebookPost)
    (h : l.Pairwise (fun a b => b.timestamp ≤ a.timestamp)) :
    (insertDesc p l).Pairwise (fun a b => b.timestamp ≤ a.timestamp) := by
  induction l with
  | nil => simp [insertDesc]
  | cons q qs ih =>
    rcases List.pairwise_cons.mp h with ⟨hq, hqs⟩
    simp only [insertDesc]
    split
    case isTrue hgt =>
      refine List.pairwise_cons.mpr ⟨?_, ih hqs⟩
      intro b hb
      rcases List.mem_cons.mp ((insertDesc_perm p qs).mem_iff.mp hb) with hbp | hbqs
      · exact hbp ▸ le_of_lt hgt
      · exact hq b hbqs
    case isFalse hle =>
      refine List.pairwise_cons.mpr ⟨?_, h⟩
      intro b hb
      rcases List.mem_cons.mp hb with hbq | hbqs
      · exact hbq ▸ not_lt.mp hle
      · exact le_trans (hq b hbqs) (not_lt.mp hle)

theorem sortDesc_pairwise (l : List FacebookPost) :
    (sortDesc l).Pairwise (fun a b => b.timestamp ≤ a.timestamp) := by
  induction l with
  | nil => simp [sortDesc]
  | cons p ps ih => exact insertDesc_pairwise p (sortDesc ps) ih

theorem insertDesc_filter (p : FacebookPost) (l : List FacebookPost) (t : Int) :
    (insertDesc p l).filter (fun x => x.timestamp == t)
      = ((p :: l).filter (fun x => x.timestamp == t)) := by
  induction l with
  | nil => rfl
  | cons q qs ih =>
    simp only [insertDesc]
    split
    case isTrue hgt =>
      by_cases hp : p.timestamp = t <;> by_cases hq : q.timestamp = t
      · exact absurd (hp.trans hq.symm) (by intro e; rw [e] at hgt; exact lt_irrefl _ hgt)
      all_goals (simp only [List.filter_cons, ih]; simp [hp, hq])
    case isFalse hle => rfl

theorem sortDesc_filter (l : List FacebookPost) (t : Int) :
    (sortDesc l).filter (fun x => x.timestamp == t)
      = l.filter (fun x => x.timestamp == t) := by
  induction l with
  | nil => rfl
  | cons p ps ih =>
    simp only [sortDesc, insertDesc_filter, List.filter_cons, ih]

/-! ## Seen-timestamp invariants of the two deduplication scopes -/

theorem postOf_timestamp (item : Record) : (postOf item).timestamp = recordKey item := rfl

theorem dedupInv_append (posts : List FacebookPost) (seen : List Int)
    (q : FacebookPost) (h : dedupInv (posts, seen)) (hq : q.timestamp ∉ seen) :
    dedupInv (posts ++ [q], q.timestamp :: seen) := by
  constructor
  · simp only [List.map_append, List.map_cons, List.map_nil]
    rw [List.nodup_append]
    refine ⟨h.1, List.nodup_singleton _, ?_⟩
    intro a ha hb
    rcases List.mem_map.mp ha with ⟨p, hp, rfl⟩
    rcases List.mem_singleton.mp hb with e
    exact hq (e ▸ h.2 p hp)
  · intro p hp
    rcases List.mem_append.mp hp with hold | hnew
    · exact List.mem_cons_of_mem _ (h.2 p hold)
    · rw [List.mem_singleton.mp hnew]
      exact List.mem_cons_self _ _

theorem extractStep_inv (acc : List FacebookPost × List Int) (item : Record)
    (h : dedupInv acc) : dedupInv (extractStep acc item) := by
  unfold extractStep
  by_cases hmem : recordKey item ∈ acc.2
  · simpa [hmem] using h
  · by_cases hacc : extractText item.data ≠ "" ∨ (scanAttachments item.attachments).1 ≠ []
    · simp only [hmem, hacc, if_false, if_true]
      exact dedupInv_append acc.1 acc.2 (postOf item) h (by rwa [postOf_timestamp])
    · simp only [hmem, hacc, if_false, if_true]
      exact ⟨h.1, fun p hp => List.mem_cons_of_mem _ (h.2 p hp)⟩

theorem extractFoldl_inv (data : List Record) (acc : List FacebookPost × List Int)
    (h : dedupInv acc) : dedupInv (data.foldl extractStep acc) := by
  induction data generalizing acc with
  | nil => exact h
  | cons item rest ih => exact ih _ (extractStep_inv acc item h)

theorem extract_posts_nodup (data : List Record) :
    ((extract_posts_from_json data).map (fun p => p.timestamp)).Nodup :=
  (extractFoldl_inv data ([], []) ⟨List.nodup_nil, by simp⟩).1

theorem dedupInsert_inv (acc : List FacebookPost × List Int) (post : FacebookPost)
    (h : dedupInv acc) : dedupInv (dedupInsert acc post) := by
  unfold dedupInsert
  by_cases hmem : post.timestamp ∈ acc.2
  · simpa [hmem] using h
  · simp only [hmem, if_false]
    exact dedupInv_append acc.1 acc.2 post h hmem

theorem dedupFoldl_inv (posts : List FacebookPost) (acc : List FacebookPost × List Int)
    (h : dedupInv acc) : dedupInv (posts.foldl dedupInsert acc) := by
  induction posts generalizing acc with
  | nil => exact h
  | cons p rest ih => exact ih _ (dedupInsert_inv acc p h)

theorem mergeFileStep_inv (acc : List FacebookPost × List Int)
    (file : Option (List Record)) (h : dedupInv acc) :
    dedupInv (mergeFileStep acc file) := by
  cases file with
  | none => exact h
  | some data => exact dedupFoldl_inv _ acc h

theorem mergeFoldl_inv (files : List (Option (List Record)))
    (acc : List FacebookPost × List Int) (h : dedupInv acc) :
    dedupInv (files.foldl mergeFileStep acc) := by
  induction files generalizing acc with
  | nil => exact h
  | cons f rest ih => exact ih _ (mergeFileStep_inv acc f h)

theorem merge_unsorted_nodup (files : List (Option (List Record))) :
    ((merge_unsorted files).map (fun p => p.timestamp)).Nodup :=
  (mergeFoldl_inv files ([], []) ⟨List.nodup_nil, by simp⟩).1

/-- A list whose timestamps are pairwise distinct holds at most one element
with any given timestamp. -/
theorem nodup_filter_length_le_one (l : List FacebookPost) (t : Int)
    (h : (l.map (fun p => p.timestamp)).Nodup) :
    (l.filter (fun p => p.timestamp == t)).length ≤ 1 := by
  induction l with
  | nil => simp
  | cons p ps ih =>
    simp only [List.map_cons, List.nodup_cons] at h
    by_cases hp : p.timestamp = t
    · have hnil : ps.filter (fun q => q.timestamp == t) = [] := by
        rw [List.filter_eq_nil_iff]
        intro q hq hqt
        exact h.1 (by
          rw [beq_iff_eq] at hqt
          rw [hp, ← hqt]
          exact List.mem_map_of_mem _ hq)
      simp [List.filter_cons, hp, hnil]
    · simpa [List.filter_cons, hp] using ih h.2

/-! ## Computation lemmas for the record loop -/

theorem extractStep_skip (acc : List FacebookPost × List Int) (item : Record)
    (h : recordKey item ∈ acc.2) : extractStep acc item = acc := by
  simp [extractStep, h]

theorem extractStep_accept (acc : List FacebookPost × List Int) (item : Record)
    (h1 : recordKey item ∉ acc.2)
    (h2 : extractText item.data ≠ "" ∨ (scanAttachments item.attachments).1 ≠ []) :
    extractStep acc item = (acc.1 ++ [postOf item], recordKey item :: acc.2) := by
  simp only [extractStep, if_neg h1, if_pos h2]

theorem extractStep_reject (acc : List FacebookPost × List Int) (item : Record)
    (h1 : recordKey item ∉ acc.2)
    (h2 : extractText item.data = "") (h3 : (scanAttachments item.attachments).1 = []) :
    extractStep acc item = (acc.1, recordKey item :: acc.2) := by
  simp [extractStep, h1, h2, h3]

/-! ## Last-writer-wins characterisation of the external URL scan -/

theorem attDataStep_url (acc : List String × String) (ad : AttData) :
    (attDataStep acc ad).2
      = match ad.external_context with
        | some ec => ec.url.getD ""
        | none => acc.2 := rfl

theorem scanAttachments_eq_foldl (atts : List Attachment) :
    scanAttachments atts = (atts.flatMap (fun a => a.data)).foldl attDataStep ([], "") := by
  suffices h : ∀ acc, atts.foldl (fun acc att => att.data.foldl attDataStep acc) acc
      = (atts.flatMap (fun a => a.data)).foldl attDataStep acc from h ([], "")
  induction atts with
  | nil => intro acc; rfl
  | cons a rest ih =>
    intro acc
    rw [List.flatMap_cons, List.foldl_append, List.foldl_cons, ih]

theorem foldl_attDataStep_url (ads : List AttData) (acc : List String × String) :
    (ads.foldl attDataStep acc).2
      = match (ads.filterMap (fun ad => ad.external_context)).getLast? with
        | some ec => ec.url.getD ""
        | none => acc.2 := by
  induction ads generalizing acc with
  | nil => rfl
  | cons ad ads ih =>
    rw [List.foldl_cons, ih]
    cases hec : ad.external_context with
    | none =>
      simp only [List.filterMap_cons, hec, attDataStep_url]
    | some ec =>
      simp only [List.filterMap_cons, hec, attDataStep_url]
      cases hl : ads.filterMap (fun ad => ad.external_context) with
      | nil => simp
      | cons x xs =>
        rw [List.getLast?_cons_cons]
        cases hg : (x :: xs).getLast? with
        | none => exact absurd (List.getLast?_eq_none_iff.mp hg) (List.cons_ne_nil x xs)
        | some y => rfl

/-! ## Computation lemmas for the merge loop -/

theorem mergeFileStep_none (acc : List FacebookPost × List Int) :
    mergeFileStep acc none = acc := rfl

theorem mergeFileStep_some (acc : List FacebookPost × List Int) (data : List Record) :
    mergeFileStep acc (some data) = (extract_posts_from_json data).foldl dedupInsert acc := rfl

theorem dedupInsert_new (acc : List FacebookPost × List Int) (p : FacebookPost)
    (h : p.timestamp ∉ acc.2) :
    dedupInsert acc p = (acc.1 ++ [p], p.timestamp :: acc.2) := by
  simp [dedupInsert, h]

theorem dedupInsert_old (acc : List FacebookPost × List Int) (p : FacebookPost)
    (h : p.timestamp ∈ acc.2) : dedupInsert acc p = acc := by
  simp [dedupInsert, h]

/-- A batch consisting only of records rejected by the retention filter
contributes no posts, whatever the starting accumulator. -/
theorem extract_foldl_all_rejected (data : List Record) :
    ∀ acc : List FacebookPost × List Int,
    (∀ item ∈ data,
      extractText item.data = "" ∧ (scanAttachments item.attachments).1 = []) →
    (data.foldl extractStep acc).1 = acc.1 := by
  induction data with
  | nil => intro acc _; rfl
  | cons item rest ih =>
    intro acc hall
    rw [List.foldl_cons]
    rw [ih _ (fun it hit => hall it (List.mem_cons_of_mem _ hit))]
    have h := hall item (List.mem_cons_self _ _)
    by_cases h1 : recordKey item ∈ acc.2
    · rw [extractStep_skip acc item h1]
    · rw [extractStep_reject acc item h1 h.1 h.2]

/-! ## The escaping function never emits a raw angle bracket -/

theorem escapeChar_no_lt (c : Char) : ('<') ∉ (escapeChar c).data := by
  unfold escapeChar
  split_ifs with h1 h2 h3 h4 h5
  · decide
  · decide
  · decide
  · decide
  · decide
  · intro hmem
    exact h2 (List.mem_singleton.mp hmem).symm

theorem htmlEscape_no_lt (s : String) : ('<') ∉ (htmlEscape s).data := by
  intro hmem
  unfold htmlEscape at hmem
  rw [show (String.mk (s.toList.flatMap fun c => (escapeChar c).data)).data
      = s.toList.flatMap (fun c => (escapeChar c).data) from rfl] at hmem
  rcases List.mem_flatMap.mp hmem with ⟨c, _, hin⟩
  exact escapeChar_no_lt c hin

/-! ## Claim theorems -/

/-- C2: for every input record whose extracted text is empty and whose
extracted photo-path list is empty, the extractor produces no post for that
record — the record loop leaves the post accumulator unchanged on such a
record whatever its other fields and whatever the dedup state — and a batch
consisting only of such records yields no posts at all. -/
theorem claim_C2 :
    (∀ (acc : List FacebookPost × List Int) (item : Record),
      extractText item.data = "" → (scanAttachments item.attachments).1 = [] →
      (extractStep acc item).1 = acc.1)
    ∧ ∀ data : List Record,
        (∀ item ∈ data,
          extractText item.data = "" ∧ (scanAttachments item.attachments).1 = []) →
        extract_posts_from_json data = [] := by
  constructor
  · intro acc item h2 h3
    by_cases h1 : recordKey item ∈ acc.2
    · rw [extractStep_skip acc item h1]
    · rw [extractStep_reject acc item h1 h2 h3]
  · intro data hall
    exact extract_foldl_all_rejected data ([], []) hall

/-- Witness for C2: a record with a timestamp, a title, a tag and an
external URL but empty text and no photos produces no post. -/
theorem claim_C2_witness :
    extractText (⟨some 7, [⟨""⟩], "T", [⟨"a"⟩],
        [⟨[⟨none, some ⟨some "http://u"⟩⟩]⟩]⟩ : Record).data = ""
    ∧ (scanAttachments (⟨some 7, [⟨""⟩], "T", [⟨"a"⟩],
        [⟨[⟨none, some ⟨some "http://u"⟩⟩]⟩]⟩ : Record).attachments).1 = []
    ∧ (extractStep ([], []) (⟨some 7, [⟨""⟩], "T", [⟨"a"⟩],
        [⟨[⟨none, some ⟨some "http://u"⟩⟩]⟩]⟩ : Record)).1 = []
    ∧ extract_posts_from_json [(⟨some 7, [⟨""⟩], "T", [⟨"a"⟩],
        [⟨[⟨none, some ⟨some "http://u"⟩⟩]⟩]⟩ : Record)] = [] :=
  ⟨rfl, rfl,
    claim_C2.1 ([], []) _ rfl rfl,
    claim_C2.2 _ (by intro it hit; rw [List.mem_singleton] at hit; subst hit; exact ⟨rfl, rfl⟩)⟩

/-- C3: the collection returned by `load_and_merge_posts` is ordered by
timestamp descending, and the sort is stable: it is a permutation of the
pre-sort accumulated list in which the posts carrying any fixed timestamp
appear exactly as they did before sorting. -/
theorem claim_C3 :
    (∀ files, (load_and_merge_posts files).Pairwise
        (fun a b => b.timestamp ≤ a.timestamp))
    ∧ (∀ files, (load_and_merge_posts files).Perm (merge_unsorted files))
    ∧ ∀ files (t : Int),
        (load_and_merge_posts files).filter (fun p => p.timestamp == t)
          = (merge_unsorted files).filter (fun p => p.timestamp == t) :=
  ⟨fun _ => sortDesc_pairwise _, fun _ => sortDesc_perm _, fun _ t => sortDesc_filter _ t⟩

/-- C4: all timestamps in the final collection of `load_and_merge_posts`
are pairwise distinct, for any sequence of parsed record documents. -/
theorem claim_C4 (files : List (Option (List Record))) :
    ((load_and_merge_posts files).map (fun p => p.timestamp)).Nodup :=
  (((sortDesc_perm (merge_unsorted files)).map (fun p => p.timestamp)).nodup_iff).mpr
    (merge_unsorted_nodup files)

/-- C8: the normalizer is total (it is a plain function to `String`),
maps the empty string to itself, and returns its input unchanged whenever
the encoding-repair transform is invalid for that input. -/
theorem claim_C8 :
    fix_encoding "" = ""
    ∧ ∀ s : String, repair_transform s = none → fix_encoding s = s := by
  refine ⟨rfl, ?_⟩
  intro s h
  by_cases hs : s = ""
  · simp [fix_encoding, hs]
  · simp [fix_encoding, hs, h]

/-- Witness for C8: the one-character string U+00E9 encodes to the single
latin-1 byte 0xE9, which is not valid UTF-8, so the repair transform fails
and the string comes back unchanged. -/
theorem claim_C8_witness :
    repair_transform "é" = none ∧ fix_encoding "é" = "é" :=
  ⟨by decide, claim_C8.2 "é" (by decide)⟩

/-- C9: a file whose document fails to parse is skipped without affecting
any other file: removing the failed entry from the input sequence leaves
the final collection unchanged, wherever the failure occurs, so one
malformed file never aborts the run. -/
theorem claim_C9 (xs ys : List (Option (List Record))) :
    load_and_merge_posts (xs ++ none :: ys) = load_and_merge_posts (xs ++ ys) := by
  unfold load_and_merge_posts merge_unsorted
  rw [List.foldl_append, List.foldl_append, List.foldl_cons]
  rfl

/-- C10: a record without a timestamp field gets the default key 0; once 0
is in the seen set such a record is dropped entirely; and any single
extractor call yields at most one post with timestamp 0. -/
theorem claim_C10 :
    (∀ item : Record, item.timestamp = none → recordKey item = 0)
    ∧ (∀ (acc : List FacebookPost × List Int) (item : Record),
        item.timestamp = none → (0 : Int) ∈ acc.2 → extractStep acc item = acc)
    ∧ ∀ data : List Record,
        ((extract_posts_from_json data).filter (fun p => p.timestamp == 0)).length ≤ 1 := by
  refine ⟨?_, ?_, ?_⟩
  · intro item h
    simp [recordKey, h]
  · intro acc item h h0
    apply extractStep_skip
    simpa [recordKey, h] using h0
  · intro data
    exact nodup_filter_length_le_one _ 0 (extract_posts_nodup data)

/-- Witness for C10: a second timestamp-less (hence key-0) record is
dropped even though it is a valid distinct post, and a batch of two
timestamp-less valid records produces at most one key-0 post. -/
theorem claim_C10_witness :
    recordKey (⟨none, [], "", [], []⟩ : Record) = 0
    ∧ extractStep ([], [0]) (⟨none, [⟨"x"⟩], "", [], []⟩ : Record) = ([], [0])
    ∧ ((extract_posts_from_json
          [(⟨none, [⟨"x"⟩], "", [], []⟩ : Record), (⟨none, [⟨"y"⟩], "", [], []⟩ : Record)]).filter
        (fun p => p.timestamp == 0)).length ≤ 1 :=
  ⟨claim_C10.1 _ rfl, claim_C10.2.1 _ _ rfl (by decide), claim_C10.2.2 _⟩

set_option maxRecDepth 200000 in
/-- C5: escaped interpolations can never introduce a raw left angle
bracket, and on the spec's concrete scenario — a post whose text is the
script tag — the generated document contains the escaped form and no raw
`<script>` substring. -/
theorem claim_C5 :
    (∀ s : String, ('<') ∉ (htmlEscape s).data)
    ∧ strContains
        (generate_html (fun _ => false)
          [mkFacebookPost 0 "<script>alert(1)</script>" "" [] [] [] ""])
        "&lt;script&gt;alert(1)&lt;/script&gt;" = true
    ∧ strContains
        (generate_html (fun _ => false)
          [mkFacebookPost 0 "<script>alert(1)</script>" "" [] [] [] ""])
        "<script>" = false :=
  ⟨htmlEscape_no_lt, by decide, by decide⟩

/-- C6 (amended): `load_and_merge_posts` does accumulate the accepted
posts in encounter order, but sorts them by timestamp descending itself
before returning — its output is the sorted permutation of the encounter
-order accumulation, not the unsorted accumulation. -/
theorem claim_C6 :
    (∀ files, load_and_merge_posts files = sortDesc (merge_unsorted files))
    ∧ (∀ files, (load_and_merge_posts files).Perm (merge_unsorted files))
    ∧ ∀ files, (load_and_merge_posts files).Pairwise
        (fun a b => b.timestamp ≤ a.timestamp) :=
  ⟨fun _ => rfl, fun _ => sortDesc_perm _, fun _ => sortDesc_pairwise _⟩

/-- Counterexample to C6 as stated: for two files with timestamps 100 and
300 in that encounter order, the value returned by `load_and_merge_posts`
differs from the encounter-order accumulation — it is already sorted. -/
theorem claim_C6_counterexample :
    load_and_merge_posts
        [some [(⟨some 100, [⟨"a"⟩], "", [], []⟩ : Record)],
         some [(⟨some 300, [⟨"b"⟩], "", [], []⟩ : Record)]]
      ≠ merge_unsorted
        [some [(⟨some 100, [⟨"a"⟩], "", [], []⟩ : Record)],
         some [(⟨some 300, [⟨"b"⟩], "", [], []⟩ : Record)]] := by
  decide

/-- C7 (amended): the external URL produced by the attachment scan is the
`url` of the *last* data entry carrying a present (truthy)
`external_context`, defaulting to the empty string when that entry has no
`url` field — so an entry with an `external_context` but no `url`
overwrites a previously extracted URL with the empty string, while an
entry with no `external_context` at all leaves it unchanged. -/
theorem claim_C7 (atts : List Attachment) :
    (scanAttachments atts).2 = lastExternalUrl atts := by
  rw [scanAttachments_eq_foldl, foldl_attDataStep_url]
  unfold lastExternalUrl
  cases ((atts.flatMap (fun a => a.data)).filterMap (fun ad => ad.external_context)).getLast? with
  | none => rfl
  | some ec => rfl

/-- Counterexample to C7 as stated: after an entry sets the URL to
"http://x", a later entry whose `external_context` has no `url` field does
not leave it unchanged — it resets it to the empty string. -/
theorem claim_C7_counterexample :
    (scanAttachments
        [⟨[⟨none, some ⟨some "http://x"⟩⟩, ⟨none, some ⟨none⟩⟩]⟩]).2 = ""
    ∧ (scanAttachments
        [⟨[⟨none, some ⟨some "http://x"⟩⟩, ⟨none, some ⟨none⟩⟩]⟩]).2 ≠ "http://x" := by
  exact ⟨rfl, by decide⟩

/-- C1 (amended): a record skipped by the retention filter still claims
its timestamp in the per-file dedup scope (though never in the cross-file
scope).  For two records with one timestamp, one valid and one invalid:
the valid post is the sole survivor when the valid record comes first in a
shared file or when the records are in different files (either order); but
when the invalid record precedes the valid one in the same file, no post
with that timestamp survives at all. -/
theorem claim_C1 (i v : Record)
    (hk : recordKey i = recordKey v)
    (hit : extractText i.data = "")
    (hip : (scanAttachments i.attachments).1 = [])
    (hv : extractText v.data ≠ "" ∨ (scanAttachments v.attachments).1 ≠ []) :
    load_and_merge_posts [some [v, i]] = [postOf v]
    ∧ load_and_merge_posts [some [v], some [i]] = [postOf v]
    ∧ load_and_merge_posts [some [i], some [v]] = [postOf v]
    ∧ load_and_merge_posts [some [i, v]] = [] := by
  have e_v : extract_posts_from_json [v] = [postOf v] := by
    unfold extract_posts_from_json
    rw [List.foldl_cons, extractStep_accept ([], []) v (by simp) hv, List.foldl_nil]
    rfl
  have e_i : extract_posts_from_json [i] = [] := by
    unfold extract_posts_from_json
    rw [List.foldl_cons, extractStep_reject ([], []) i (by simp) hit hip, List.foldl_nil]
  have e_vi : extract_posts_from_json [v, i] = [postOf v] := by
    unfold extract_posts_from_json
    rw [List.foldl_cons, extractStep_accept ([], []) v (by simp) hv,
      List.foldl_cons, extractStep_skip _ i (by simp [hk]), List.foldl_nil]
    rfl
  have e_iv : extract_posts_from_json [i, v] = [] := by
    unfold extract_posts_from_json
    rw [List.foldl_cons, extractStep_reject ([], []) i (by simp) hit hip,
      List.foldl_cons, extractStep_skip _ v (by simp [hk]), List.foldl_nil]
  have m_v : mergeFileStep ([], []) (some [v]) = ([postOf v], [(postOf v).timestamp]) := by
    rw [mergeFileStep_some, e_v, List.foldl_cons, List.foldl_nil,
      dedupInsert_new ([], []) (postOf v) (by simp)]
    rfl
  have m_i : ∀ acc, mergeFileStep acc (some [i]) = acc := by
    intro acc
    rw [mergeFileStep_some, e_i, List.foldl_nil]
  have m_vi : mergeFileStep ([], []) (some [v, i]) = ([postOf v], [(postOf v).timestamp]) := by
    rw [mergeFileStep_some, e_vi, List.foldl_cons, List.foldl_nil,
      dedupInsert_new ([], []) (postOf v) (by simp)]
    rfl
  have m_iv : mergeFileStep ([], []) (some [i, v]) = ([], []) := by
    rw [mergeFileStep_some, e_iv, List.foldl_nil]
  refine ⟨?_, ?_, ?_, ?_⟩
  · unfold load_and_merge_posts merge_unsorted
    rw [List.foldl_cons, m_vi, List.foldl_nil]
    rfl
  · unfold load_and_merge_posts merge_unsorted
    rw [List.foldl_cons, m_v, List.foldl_cons, m_i, List.foldl_nil]
    rfl
  · unfold load_and_merge_posts merge_unsorted
    rw [List.foldl_cons, m_i, List.foldl_cons, m_v, List.foldl_nil]
    rfl
  · unfold load_and_merge_posts merge_unsorted
    rw [List.foldl_cons, m_iv, List.foldl_nil]
    rfl

/-- Counterexample to C1 as stated: one file holding an invalid record
(timestamp 5, empty text, no photos) followed by a valid record with the
same timestamp yields an empty final collection — the skipped record did
enter the per-file dedup scope and blocked the valid one, so no post with
timestamp 5 survives. -/
theorem claim_C1_counterexample :
    extractText (⟨some 5, [], "t", [], []⟩ : Record).data = ""
    ∧ (scanAttachments (⟨some 5, [], "t", [], []⟩ : Record).attachments).1 = []
    ∧ extractText (⟨some 5, [⟨"hi"⟩], "", [], []⟩ : Record).data ≠ ""
    ∧ load_and_merge_posts
        [some [(⟨some 5, [], "t", [], []⟩ : Record),
               (⟨some 5, [⟨"hi"⟩], "", [], []⟩ : Record)]] = [] := by
  refine ⟨rfl, rfl, by decide, by decide⟩

/-- Witness for C1 (amended) at timestamp 5: invalid record with a title
only, valid record with text "hi", valid-first single file. -/
theorem claim_C1_witness :
    recordKey (⟨some 5, [], "t", [], []⟩ : Record)
        = recordKey (⟨some 5, [⟨"hi"⟩], "", [], []⟩ : Record)
    ∧ extractText (⟨some 5, [], "t", [], []⟩ : Record).data = ""
    ∧ (scanAttachments (⟨some 5, [], "t", [], []⟩ : Record).attachments).1 = []
    ∧ extractText (⟨some 5, [⟨"hi"⟩], "", [], []⟩ : Record).data ≠ ""
    ∧ load_and_merge_posts
        [some [(⟨some 5, [⟨"hi"⟩], "", [], []⟩ : Record),
               (⟨some 5, [], "t", [], []⟩ : Record)]]
        = [postOf (⟨some 5, [⟨"hi"⟩], "", [], []⟩ : Record)] :=
  ⟨rfl, rfl, rfl, by decide,
    (claim_C1 (⟨some 5, [], "t", [], []⟩ : Record) (⟨some 5, [⟨"hi"⟩], "", [], []⟩ : Record)
      rfl rfl rfl (Or.inl (by decide))).1⟩
